import Mathlib

/-!
Verification of the conditional/range request resolution engine of the
`render-isos` worker (`src/index.ts`).

The worker is shallowly embedded: the external collaborators (the R2 blob
store, the byte-range text parser, HTTP-date parsing, UTC date rendering and
the edge cache) are abstract function parameters collected in `Backend` and
`World`, exactly as the spec treats them (out of scope, §6).  The `fetch`
handler itself, together with all of its helper functions, is translated
line-by-line from the source.  JavaScript truthiness of strings/numbers and
`null`/`undefined` are modelled with `Option` plus explicit truthiness
helpers; `Date.parse` returning `NaN` is modelled as `none`.

Every backend call the handler performs is recorded in an ordered trace
(`List BackendCall`) so that statements such as "processing stops, no
further backend calls" are directly expressible.
-/

/-- Byte-range representation used by the worker (source line 21):
either an explicit window `{offset, length}` or a suffix `{suffix}`. -/
inductive ParsedRange where
  | offsetLength (offset : Nat) (length : Nat)
  | suffix (n : Nat)
deriving DecidableEq

/-- Discriminator `rangeHasLength` (source lines 23-27): an explicit
`{offset, length}` window, as opposed to a suffix range. -/
def rangeHasLength : ParsedRange → Bool
  | .offsetLength _ _ => true
  | .suffix _ => false

/-- Optional HTTP metadata stored with an R2 object (`httpMetadata`).
`cacheExpiry` is a timestamp (milliseconds); its rendering to a UTC string
is delegated to the abstract `Backend.toUTCString` collaborator. -/
structure R2HttpMetadata where
  contentType : Option String := none
  contentEncoding : Option String := none
  contentLanguage : Option String := none
  cacheControl : Option String := none
  cacheExpiry : Option Int := none
deriving DecidableEq

/-- Metadata of an R2 object: size in bytes, strong validator (`httpEtag`,
already surrounded by quotes), upload timestamp (milliseconds) and the
optional HTTP metadata. -/
structure R2Object where
  size : Nat
  httpEtag : String
  uploaded : Int
  httpMetadata : Option R2HttpMetadata := none
deriving DecidableEq

/-- Result of an R2 `get`: either metadata without a body (the condition
failed, see spec §6) or metadata together with the body bytes.  This is the
tagged rendering of the code's `R2Object | R2ObjectBody` union, which the
code discriminates with `hasBody` (source lines 29-31). -/
inductive R2Result where
  | meta (o : R2Object)
  | withBody (o : R2Object) (body : List Nat)
deriving DecidableEq

/-- The metadata carried by either variant of an R2 result. -/
def R2Result.obj : R2Result → R2Object
  | .meta o => o
  | .withBody o _ => o

/-- The `hasBody` discriminator (source lines 29-31). -/
def R2Result.hasBody : R2Result → Bool
  | .meta _ => false
  | .withBody _ _ => true

/-- The body bytes of a body-bearing result (empty for metadata-only). -/
def R2Result.bodyBytes : R2Result → List Nat
  | .meta _ => []
  | .withBody _ bs => bs

/-- The `onlyIf` conditions of an R2 conditional `get` (spec §6):
`etagMatches`, `etagDoesNotMatch`, `uploadedBefore`, `uploadedAfter`. -/
structure OnlyIf where
  etagMatches : Option String := none
  etagDoesNotMatch : Option String := none
  uploadedBefore : Option Int := none
  uploadedAfter : Option Int := none
deriving DecidableEq

/-- Options of an R2 `get` call: optional conditions and an optional range. -/
structure GetOptions where
  onlyIf : Option OnlyIf := none
  range : Option ParsedRange := none
deriving DecidableEq

/-- Result of the external range-parser collaborator (spec §6):
`-1` (malformed), `-2` (unsatisfiable), or a typed list of
`{start, end}` pairs. -/
inductive ParseResult where
  | malformed
  | unsatisfiable
  | ranges (type : String) (rs : List (Nat × Nat))
deriving DecidableEq

/-- Negation of the acceptance test at source lines 141-146: a parse result
is rejected when it is malformed, unsatisfiable, not exactly one range, or
not of unit `bytes`. -/
def ParseResult.rejected : ParseResult → Bool
  | .malformed => true
  | .unsatisfiable => true
  | .ranges ty rs => rs.length != 1 || ty != "bytes"

/-- Body of an outgoing `Response`: a literal text (the string literals the
code passes to `new Response`) or a byte stream (the `FixedLengthStream`
readable).  `new Response(null, ...)` is `none` at the `Response` level. -/
inductive RespBody where
  | text (s : String)
  | stream (bytes : List Nat)
deriving DecidableEq

/-- An outgoing HTTP response: status, header list (in construction order)
and optional body. -/
structure Response where
  status : Nat
  headers : List (String × String)
  body : Option RespBody
deriving DecidableEq

/-- `Response.ok` of the Fetch API: the status is in the 200-299 range. -/
def Response.ok (r : Response) : Bool := 200 ≤ r.status && r.status ≤ 299

/-- Look a header up by (lowercase) name in a response. -/
def Response.header (r : Response) (n : String) : Option String :=
  (r.headers.find? (fun p => p.1 == n)).map (fun p => p.2)

/-- An incoming request: method, URL path, query parameters and headers.
Header names are normalized to lowercase, as `request.headers.get` is
case-insensitive. -/
structure Request where
  method : String
  pathname : String
  query : List (String × String)
  headers : List (String × String)
deriving DecidableEq

/-- `url.searchParams.get`: first value of the named query parameter. -/
def getParam (req : Request) (name : String) : Option String :=
  (req.query.find? (fun p => p.1 == name)).map (fun p => p.2)

/-- `request.headers.get`: first value of the named header. -/
def getHeader (req : Request) (name : String) : Option String :=
  (req.headers.find? (fun p => p.1 == name)).map (fun p => p.2)

/-- The configuration fields of `Env` that the handler actually reads
(source lines 3-17; the remaining interface fields are never used by the
code).  `none` models an unset (`undefined`) binding. -/
structure Env where
  ALLOWED_ORIGINS : Option String := none
  CACHE_CONTROL : Option String := none
  NOTFOUND_FILE : Option String := none
  LOGGING : Bool := false
  R2_RETRIES : Option Int := none
  DATE_SUFFIX : Option Nat := none
deriving DecidableEq

/-- JavaScript truthiness of a possibly-missing string: `undefined`, `null`
and `""` are falsy. -/
def truthyOpt : Option String → Bool
  | none => false
  | some s => s != ""

/-- JavaScript truthiness of a possibly-`NaN` number (`none` models `NaN`):
`NaN` and `0` are falsy. -/
def truthyIntOpt : Option Int → Bool
  | none => false
  | some t => t != 0

/-- The external collaborators of the engine (spec §6): the blob store's
`head` and `get`, the range text parser, HTTP-date parsing (`Date.parse`,
`none` for `NaN`) and UTC date rendering (`Date.prototype.toUTCString`). -/
structure Backend where
  bucketHead : String → Option R2Object
  bucketGet : String → GetOptions → Option R2Result
  parseRange : Nat → String → ParseResult
  dateParse : String → Option Int
  toUTCString : Int → String

/-- A world: the backend collaborators plus the edge cache lookup
(`caches.default.match`). -/
structure World where
  backend : Backend
  cacheMatch : Request → Option Response

/-- One backend call, as recorded in the request's call trace. -/
inductive BackendCall where
  | headCall (key : String)
  | getCall (key : String) (opts : GetOptions)
deriving DecidableEq

/-- The outcome of one request: the response handed to the client, the
ordered trace of backend calls performed, and whether the response was
scheduled for the edge cache (`ctx.waitUntil(cache.put(request,
response.clone()))`; the stored entry is the response itself). -/
structure FetchOutcome where
  response : Response
  calls : List BackendCall
  cachePut : Bool
deriving DecidableEq

/-- The supported methods (source line 72). -/
def allowedMethods : List String := ["GET", "HEAD", "OPTIONS"]

/-- `allowedMethods.join(", ")`. -/
def allowHeaderValue : String := "GET, HEAD, OPTIONS"

/-- Fixed keyring object name (source line 104). -/
def keyringFilename : String := "secureblue-keyring.gpg"

/-- ISO download path (source line 105). -/
def isoDownloadPath : String := "/download"

/-- Checksum download path (source line 106). -/
def checksumDownloadPath : String := "/downloadSHA256SUM"

/-- Rendering of `env.DATE_SUFFIX` inside the key template literal: a
number prints in decimal, an unset binding prints as `undefined`. -/
def dateSuffixStr (env : Env) : String :=
  match env.DATE_SUFFIX with
  | some n => toString n
  | none => "undefined"

/-- The templated ISO key (source line 117):
`secureblue-<de>-<nvidia>-hardened-<DATE_SUFFIX>.iso`. -/
def isoKeyOf (env : Env) (de nvidia : String) : String :=
  "secureblue-" ++ de ++ "-" ++ nvidia ++ "-hardened-" ++ dateSuffixStr env ++ ".iso"

/-- A quote character (single or double), as matched by the character class
of the regex at source line 165. -/
def isQuoteChar (c : Char) : Bool := c == Char.ofNat 39 || c == Char.ofNat 34

/-- Drop one leading quote character from a character list. -/
def dropLeadQuote : List Char → List Char
  | c :: rest => if isQuoteChar c then rest else c :: rest
  | [] => []

/-- The quote-stripping replace of source line 165: remove one leading and
one trailing quote character (single or double). -/
def stripEdgeQuotes (s : String) : String :=
  String.mk ((dropLeadQuote (dropLeadQuote s.data).reverse).reverse)

/-- `String.prototype.trim`: remove leading and trailing whitespace. -/
def jsTrim (s : String) : String :=
  String.mk (((s.data.dropWhile Char.isWhitespace).reverse.dropWhile Char.isWhitespace).reverse)

/-- `p` is a prefix of `s` (`String.prototype.startsWith`). -/
def strStartsWith (s p : String) : Bool := p.data.isPrefixOf s.data

/-- `getHeaderEtag` (source lines 164-165): trim the header value and strip
surrounding quote characters; a missing header stays missing. -/
def getHeaderEtag : Option String → Option String
  | none => none
  | some h => some (stripEdgeQuotes (jsTrim h))

/-- Range encoding of source lines 148-154: a single parsed `[start, end]`
range against the object size becomes a suffix range when `end + 1` equals
the size, and an explicit `{offset, length}` window otherwise. -/
def encodeRange (size start endByte : Nat) : ParsedRange :=
  if size = endByte + 1 then .suffix (size - start)
  else .offsetLength start (endByte - start + 1)

/-- `getRangeHeader` (source lines 37-41): render the `content-range` value
`bytes <first>-<last>/<size>`. -/
def getRangeHeader (range : ParsedRange) (fileSize : Nat) : String :=
  "bytes " ++
    toString (match range with
      | .suffix n => fileSize - n
      | .offsetLength o _ => o) ++
    "-" ++
    toString (match range with
      | .suffix _ => fileSize - 1
      | .offsetLength o l => o + l - 1) ++
    "/" ++ toString fileSize

/-- The declared length of a range (source line 258):
`rangeHasLength(range) ? range.length : range.suffix`. -/
def rangeLen : ParsedRange → Nat
  | .offsetLength _ l => l
  | .suffix n => n

/-- Modelled from the spec: the `FixedLengthStream` platform collaborator
(source lines 260-262) is not part of this repository; per spec §4.5 the
piped body "MUST be truncated or padded to exactly that declared length
before leaving the system".  Truncation keeps the first `n` bytes; padding
appends zero bytes. -/
def fixedLengthPipe (n : Nat) (bytes : List Nat) : List Nat :=
  bytes.take n ++ List.replicate (n - bytes.length) 0

/-- `ifUnmodifiedSince ? new Date(ifUnmodifiedSince) : undefined` (source
lines 192-194): a falsy (`NaN` or `0`) timestamp becomes `undefined`. -/
def uploadedBeforeOf : Option Int → Option Int
  | some t => if t ≠ 0 then some t else none
  | none => none

/-- The parsed `if-match` header (source line 166). -/
def ifMatchOf (req : Request) : Option String :=
  getHeaderEtag (getHeader req "if-match")

/-- The parsed `if-none-match` header (source line 167). -/
def ifNoneMatchOf (req : Request) : Option String :=
  getHeaderEtag (getHeader req "if-none-match")

/-- The parsed `if-modified-since` header (source lines 169-171):
`Date.parse(header || "")`, `none` for `NaN`. -/
def ifModifiedSinceOf (b : Backend) (req : Request) : Option Int :=
  b.dateParse ((getHeader req "if-modified-since").getD "")

/-- The parsed `if-unmodified-since` header (source lines 172-174). -/
def ifUnmodifiedSinceOf (b : Backend) (req : Request) : Option Int :=
  b.dateParse ((getHeader req "if-unmodified-since").getD "")

/-- The options of the `If-Match` / `If-Unmodified-Since` conditional GET
(source lines 188-198): `etagMatches` from the parsed `if-match` header,
`uploadedBefore` from the truthy `if-unmodified-since` timestamp, plus the
effective range. -/
def opts412Of (b : Backend) (req : Request) (range : Option ParsedRange) : GetOptions :=
  ⟨some ⟨ifMatchOf req, none, uploadedBeforeOf (ifUnmodifiedSinceOf b req), none⟩, range⟩

/-- The options of the `If-None-Match` / `If-Modified-Since` conditional GET
(source lines 207-221): `if-none-match` overrides `if-modified-since`
completely; the two conditions are never combined. -/
def opts304Of (b : Backend) (req : Request) (range : Option ParsedRange) : GetOptions :=
  if truthyOpt (ifNoneMatchOf req) then
    ⟨some ⟨none, ifNoneMatchOf req, none, none⟩, range⟩
  else
    ⟨some ⟨none, none, none, ifModifiedSinceOf b req⟩, range⟩

/-- The `If-Range` evaluation (source lines 176-185): when a range, a
non-empty `if-range` header and object metadata are all present, the range
is dropped unless the header is a valid date not later than the upload time,
or a strong tag equal to `httpEtag`; otherwise the range is left unchanged. -/
def ifRangeFilter (b : Backend) (range : Option ParsedRange) (ifRange : Option String)
    (file : Option R2Result) : Option ParsedRange :=
  match range, ifRange, file with
  | some r, some ir, some f =>
    if ir = "" then some r
    else
      match b.dateParse ir with
      | none =>
        if strStartsWith ir "W/" ∨ ir ≠ (R2Result.obj f).httpEtag then none else some r
      | some d =>
        if d > (R2Result.obj f).uploaded then
          if strStartsWith ir "W/" ∨ ir ≠ (R2Result.obj f).httpEtag then none else some r
        else some r
  | r, _, _ => r

/-- Caching is enabled unless `CACHE_CONTROL` is literally `no-store`
(source line 90); an unset binding also enables caching. -/
def cachingEnabled (env : Env) : Bool := env.CACHE_CONTROL != some "no-store"

/-- The range-handling stage (source lines 132-159), run before the
conditional stages.  For a GET with a truthy `range` header it performs the
metadata `head`, parses the header against the object size, and either
produces the effective range (with the head result and the call trace) or
fails with `404 File Not Found` / `416 Range Not Satisfiable`. -/
def rangeStage (b : Backend) (req : Request) (objectName : String) :
    Except FetchOutcome (Option ParsedRange × Option R2Result × List BackendCall) :=
  if req.method = "GET" ∧ truthyOpt (getHeader req "range") = true then
    match b.bucketHead objectName with
    | none =>
      .error ⟨⟨404, [], some (.text "File Not Found")⟩, [.headCall objectName], false⟩
    | some f =>
      match b.parseRange f.size ((getHeader req "range").getD "") with
      | .ranges ty rs =>
        match rs with
        | [fr] =>
          if ty = "bytes" then
            .ok (some (encodeRange f.size fr.1 fr.2), some (.meta f), [.headCall objectName])
          else
            .error ⟨⟨416, [], some (.text "Range Not Satisfiable")⟩, [.headCall objectName], false⟩
        | _ =>
          .error ⟨⟨416, [], some (.text "Range Not Satisfiable")⟩, [.headCall objectName], false⟩
      | _ =>
        .error ⟨⟨416, [], some (.text "Range Not Satisfiable")⟩, [.headCall objectName], false⟩
  else .ok (none, none, [])

/-- Response assembly (source lines 253-287): declared content length, the
fixed-length body pipe, the full header list in construction order, and the
status (`notFound ? 404 : range ? 206 : 200`). -/
def assembleResponse (b : Backend) (env : Env) (key : String) (range : Option ParsedRange)
    (notFound : Bool) (file : R2Result) : Response :=
  let o := file.obj
  let contentLength : Nat :=
    match range with
    | some r => if file.hasBody && (o.size != 0) && !notFound then rangeLen r else o.size
    | none => o.size
  let body : Option RespBody :=
    if file.hasBody && (o.size != 0) then
      some (.stream (fixedLengthPipe contentLength file.bodyBytes))
    else none
  ⟨if notFound then 404 else if range.isSome then 206 else 200,
   [("accept-ranges", "bytes"),
    ("access-control-allow-origin", env.ALLOWED_ORIGINS.getD ""),
    ("etag", if notFound then "" else o.httpEtag),
    ("cache-control",
      match o.httpMetadata.bind (fun m => m.cacheControl) with
      | some c => c
      | none => if notFound then "" else env.CACHE_CONTROL.getD ""),
    ("expires",
      match o.httpMetadata.bind (fun m => m.cacheExpiry) with
      | some t => b.toUTCString t
      | none => ""),
    ("last-modified", if notFound then "" else b.toUTCString o.uploaded),
    ("content-encoding", (o.httpMetadata.bind (fun m => m.contentEncoding)).getD ""),
    ("content-type", (o.httpMetadata.bind (fun m => m.contentType)).getD "application/octet-stream"),
    ("content-language", (o.httpMetadata.bind (fun m => m.contentLanguage)).getD ""),
    ("content-disposition", "attachment; filename=\"" ++ key ++ "\""),
    ("content-range",
      match range with
      | some r => if !notFound then getRangeHeader r o.size else ""
      | none => ""),
    ("content-length", toString contentLength)],
   body⟩

/-- Final packaging of an assembled response together with the cache-put
decision (source lines 289-290): stored only for a GET with no active
range, caching enabled and not the not-found fallback. -/
def assembleFinish (b : Backend) (req : Request) (env : Env) (isCachingEnabled : Bool)
    (key : String) (range : Option ParsedRange) (notFound : Bool) (file : R2Result)
    (calls : List BackendCall) : FetchOutcome :=
  ⟨assembleResponse b env key range notFound file, calls,
   (req.method == "GET") && range.isNone && isCachingEnabled && !notFound⟩

/-- The not-found-fallback lookup (source lines 237-250): fetch the
`NOTFOUND_FILE` object (a `head` for HEAD requests, an unconditional,
unranged `get` otherwise) and either assemble a fallback response or fail
with `404 File Not Found`. -/
def fallbackStage (b : Backend) (req : Request) (env : Env) (isCachingEnabled : Bool)
    (key : String) (range : Option ParsedRange) (calls : List BackendCall) : FetchOutcome :=
  let objectName2 := env.NOTFOUND_FILE.getD ""
  if req.method = "HEAD" then
    match (b.bucketHead objectName2).map R2Result.meta with
    | some f => assembleFinish b req env isCachingEnabled key range true f
        (calls ++ [.headCall objectName2])
    | none => ⟨⟨404, [], some (.text "File Not Found")⟩, calls ++ [.headCall objectName2], false⟩
  else
    match b.bucketGet objectName2 ⟨none, none⟩ with
    | some f => assembleFinish b req env isCachingEnabled key range true f
        (calls ++ [.getCall objectName2 ⟨none, none⟩])
    | none =>
      ⟨⟨404, [], some (.text "File Not Found")⟩, calls ++ [.getCall objectName2 ⟨none, none⟩], false⟩

/-- Dispatch on the final file (source lines 234-251): a present file is
assembled as a normal response; an absent file goes to the not-found
fallback when one is configured, and to `404 File Not Found` otherwise. -/
def afterFinal (b : Backend) (req : Request) (env : Env) (isCachingEnabled : Bool)
    (key : String) (range : Option ParsedRange) (file3 : Option R2Result)
    (calls3 : List BackendCall) : FetchOutcome :=
  match file3 with
  | some f => assembleFinish b req env isCachingEnabled key range false f calls3
  | none =>
    if truthyOpt env.NOTFOUND_FILE then
      fallbackStage b req env isCachingEnabled key range calls3
    else ⟨⟨404, [], some (.text "File Not Found")⟩, calls3, false⟩

/-- The final body/metadata fetch (source lines 227-232): a `head` for HEAD
requests; otherwise a body obtained by an earlier conditional stage is
reused, and an unconditional (possibly ranged) `get` is issued when none is
at hand. -/
def finalStage (b : Backend) (req : Request) (env : Env) (isCachingEnabled : Bool)
    (key : String) (range : Option ParsedRange) (file : Option R2Result)
    (calls : List BackendCall) : FetchOutcome :=
  if req.method = "HEAD" then
    afterFinal b req env isCachingEnabled key range ((b.bucketHead key).map R2Result.meta)
      (calls ++ [.headCall key])
  else
    match file with
    | some f =>
      if f.hasBody then afterFinal b req env isCachingEnabled key range (some f) calls
      else afterFinal b req env isCachingEnabled key range (b.bucketGet key ⟨none, range⟩)
        (calls ++ [.getCall key ⟨none, range⟩])
    | none =>
      afterFinal b req env isCachingEnabled key range (b.bucketGet key ⟨none, range⟩)
        (calls ++ [.getCall key ⟨none, range⟩])

/-- The `If-None-Match` / `If-Modified-Since` stage (source lines 205-225):
when either header is truthy, issue the conditional GET of `opts304Of`; a
metadata-only result (failed condition, i.e. no new version) stops with an
empty `304` carrying no headers. -/
def stage304 (b : Backend) (req : Request) (env : Env) (isCachingEnabled : Bool)
    (key : String) (range : Option ParsedRange) (file : Option R2Result)
    (calls : List BackendCall) : FetchOutcome :=
  if truthyOpt (ifNoneMatchOf req) || truthyIntOpt (ifModifiedSinceOf b req) then
    match b.bucketGet key (opts304Of b req range) with
    | some (.meta _) =>
      ⟨⟨304, [], none⟩, calls ++ [.getCall key (opts304Of b req range)], false⟩
    | file2 => finalStage b req env isCachingEnabled key range file2
        (calls ++ [.getCall key (opts304Of b req range)])
  else finalStage b req env isCachingEnabled key range file calls

/-- The `If-Match` / `If-Unmodified-Since` stage together with the
preceding `If-Range` evaluation (source lines 176-203): when either header
is truthy, issue the conditional GET of `opts412Of` with the effective
range; a metadata-only result (failed precondition) stops with a `412`. -/
def afterRange (b : Backend) (req : Request) (env : Env) (isCachingEnabled : Bool)
    (key : String) (range0 : Option ParsedRange) (file0 : Option R2Result)
    (calls0 : List BackendCall) : FetchOutcome :=
  let range := ifRangeFilter b range0 (getHeader req "if-range") file0
  if truthyOpt (ifMatchOf req) || truthyIntOpt (ifUnmodifiedSinceOf b req) then
    match b.bucketGet key (opts412Of b req range) with
    | some (.meta _) =>
      ⟨⟨412, [], some (.text "Precondition Failed")⟩,
       calls0 ++ [.getCall key (opts412Of b req range)], false⟩
    | file1 => stage304 b req env isCachingEnabled key range file1
        (calls0 ++ [.getCall key (opts412Of b req range)])
  else stage304 b req env isCachingEnabled key range file0 calls0

/-- The pipeline from a resolved object key onward: range stage, then the
conditional stages. -/
def afterKey (b : Backend) (req : Request) (env : Env) (isCachingEnabled : Bool)
    (key : String) : FetchOutcome :=
  match rangeStage b req key with
  | .error out => out
  | .ok (range0, file0, calls0) =>
    afterRange b req env isCachingEnabled key range0 file0 calls0

/-- The key resolver and the rest of the pipeline (source lines 103-128):
the two download paths build the templated ISO/checksum key from the
required `de` and `nvidia` query parameters (missing or empty parameters
fail with `400`), the keyring path maps to the fixed keyring key, and any
other path fails with `404 Not Found`. -/
def fetchPipeline (b : Backend) (req : Request) (env : Env) (isCachingEnabled : Bool) :
    FetchOutcome :=
  if req.pathname = isoDownloadPath ∨ req.pathname = checksumDownloadPath then
    if truthyOpt (getParam req "de") = false ∨ truthyOpt (getParam req "nvidia") = false then
      ⟨⟨400, [], some (.text "Missing parameters")⟩, [], false⟩
    else
      afterKey b req env isCachingEnabled
        (if req.pathname = checksumDownloadPath then
          isoKeyOf env ((getParam req "de").getD "") ((getParam req "nvidia").getD "") ++ "-CHECKSUM"
        else
          isoKeyOf env ((getParam req "de").getD "") ((getParam req "nvidia").getD ""))
  else if req.pathname.drop 1 = keyringFilename then
    afterKey b req env isCachingEnabled keyringFilename
  else ⟨⟨404, [], some (.text "Not Found")⟩, [], false⟩

/-- The `fetch` handler (source lines 66-298): method filtering, `OPTIONS`
handling, the edge-cache lookup (a cached response is returned only when
its status is successful or `304`), and the miss pipeline. -/
def fetch (w : World) (req : Request) (env : Env) : FetchOutcome :=
  if req.method ∉ allowedMethods then
    ⟨⟨405, [("allow", allowHeaderValue)], some (.text "Method Not Allowed")⟩, [], false⟩
  else if req.method = "OPTIONS" then
    ⟨⟨200, [("allow", allowHeaderValue)], none⟩, [], false⟩
  else
    match (if cachingEnabled env then w.cacheMatch req else none) with
    | some r =>
      if r.ok || r.status == 304 then ⟨r, [], false⟩
      else fetchPipeline w.backend req env (cachingEnabled env)
    | none => fetchPipeline w.backend req env (cachingEnabled env)

/-- Result of a run of the retry wrapper: success with the backoff delays
slept so far, the re-raised last failure with those delays, exhaustion of
the modelling fuel while the loop would continue, or the `unreachable`
error after the loop (source line 63). -/
inductive RetryResult (E T : Type) where
  | ok (t : T) (delays : List Nat)
  | err (e : E) (delays : List Nat)
  | outOfFuel (delays : List Nat)
  | unreachableError (delays : List Nat)
deriving DecidableEq

/-- The backoff delay before retry number `attempts` (source line 56):
`min(1000 * 2^(attempts - 1), 30000)` milliseconds. -/
def backoffDelay (attempts : Nat) : Nat := min (1000 * 2 ^ (attempts - 1)) 30000

/-- The retry loop of `retryAsync` (source lines 44-64), with the attempt
counter and the slept delays made explicit.  `fn n` is the result of the
`n`-th invocation of the wrapped operation.  `fuel` bounds the number of
loop iterations the model executes; the code's loop itself is bounded only
by `maxAttempts` (and unbounded when the guard keeps succeeding). -/
def retryLoop (maxAttempts : Int) (fn : Nat → Except E T) :
    Nat → Nat → List Nat → RetryResult E T
  | 0, _, delays => .outOfFuel delays
  | fuel + 1, attempts, delays =>
    if maxAttempts = -1 ∨ (attempts : Int) ≤ maxAttempts then
      match fn attempts with
      | .ok t => .ok t delays
      | .error e =>
        if ((attempts + 1 : Nat) : Int) ≤ maxAttempts then
          retryLoop maxAttempts fn fuel (attempts + 1) (delays ++ [backoffDelay (attempts + 1)])
        else .err e delays
    else .unreachableError delays

/-- `retryAsync` (source lines 44-64): run the wrapped operation under the
configured budget `env.R2_RETRIES || 0`. -/
def retryAsync (env : Env) (fn : Nat → Except E T) (fuel : Nat) : RetryResult E T :=
  retryLoop (env.R2_RETRIES.getD 0) fn fuel 0 []

/-- The key-resolution relation of the handler (source lines 103-128),
used to state theorems uniformly over the three supported request shapes. -/
abbrev ResolvesTo (req : Request) (env : Env) (key : String) : Prop :=
  (req.pathname = isoDownloadPath ∧ truthyOpt (getParam req "de") = true ∧
    truthyOpt (getParam req "nvidia") = true ∧
    key = isoKeyOf env ((getParam req "de").getD "") ((getParam req "nvidia").getD "")) ∨
  (req.pathname = checksumDownloadPath ∧ truthyOpt (getParam req "de") = true ∧
    truthyOpt (getParam req "nvidia") = true ∧
    key = isoKeyOf env ((getParam req "de").getD "") ((getParam req "nvidia").getD "") ++ "-CHECKSUM") ∨
  (req.pathname ≠ isoDownloadPath ∧ req.pathname ≠ checksumDownloadPath ∧
    req.pathname.drop 1 = keyringFilename ∧ key = keyringFilename)

/-! ### Concrete instances used as witnesses and counterexamples -/

/-- A sample object: 1000 bytes, strong validator `"e1"`, uploaded at
timestamp 5000. -/
def obj1k : R2Object := { size := 1000, httpEtag := "\"e1\"", uploaded := 5000 }

/-- A sample object of size zero. -/
def objZero : R2Object := { size := 0, httpEtag := "\"e0\"", uploaded := 5000 }

/-- The empty configuration (all bindings unset). -/
def env0 : Env := {}

/-- A backend whose conditional GETs always report a failed condition
(metadata without a body). -/
def backend412 : Backend :=
  { bucketHead := fun _ => some obj1k
  , bucketGet := fun _ _ => some (.meta obj1k)
  , parseRange := fun _ _ => .malformed
  , dateParse := fun _ => none
  , toUTCString := fun _ => "utc" }

/-- A world over `backend412` with an empty edge cache. -/
def world412 : World := { backend := backend412, cacheMatch := fun _ => none }

/-- A GET for the keyring object carrying a (non-matching) `if-match`. -/
def req412 : Request :=
  { method := "GET", pathname := "/secureblue-keyring.gpg", query := []
  , headers := [("if-match", "\"zzz\"")] }

/-- A backend that reports a failed `etagDoesNotMatch` condition for the
keyring object (the stored etag equals the presented one) and parses the
date string `"D"`. -/
def backend304 : Backend :=
  { bucketHead := fun _ => none
  , bucketGet := fun k opts =>
      if k = keyringFilename ∧ opts = ⟨some ⟨none, some "abc", none, none⟩, none⟩ then
        some (.meta obj1k)
      else none
  , parseRange := fun _ _ => .malformed
  , dateParse := fun s => if s = "D" then some 100 else none
  , toUTCString := fun _ => "utc" }

/-- A world over `backend304` with an empty edge cache. -/
def world304 : World := { backend := backend304, cacheMatch := fun _ => none }

/-- A GET for the keyring object carrying both `if-none-match` and
`if-modified-since`. -/
def req304 : Request :=
  { method := "GET", pathname := "/secureblue-keyring.gpg", query := []
  , headers := [("if-none-match", "\"abc\""), ("if-modified-since", "D")] }

/-- A backend holding the 1000-byte object, parsing the single range
`bytes=900-999`, and serving the resulting suffix-100 ranged GET. -/
def backend206 : Backend :=
  { bucketHead := fun k => if k = keyringFilename then some obj1k else none
  , bucketGet := fun k opts =>
      if k = keyringFilename ∧ opts = ⟨none, some (.suffix 100)⟩ then
        some (.withBody obj1k [])
      else none
  , parseRange := fun size s =>
      if size = 1000 ∧ s = "bytes=900-999" then .ranges "bytes" [(900, 999)] else .malformed
  , dateParse := fun _ => none
  , toUTCString := fun _ => "utc" }

/-- A world over `backend206` with an empty edge cache. -/
def world206 : World := { backend := backend206, cacheMatch := fun _ => none }

/-- A GET for the keyring object with `Range: bytes=900-999`. -/
def req206 : Request :=
  { method := "GET", pathname := "/secureblue-keyring.gpg", query := []
  , headers := [("range", "bytes=900-999")] }

/-- A backend parsing `bytes=0-1,500-501` against size 1000 as two byte
ranges, as the range-parser collaborator does. -/
def backend416 : Backend :=
  { bucketHead := fun k => if k = keyringFilename then some obj1k else none
  , bucketGet := fun _ _ => none
  , parseRange := fun size s =>
      if size = 1000 ∧ s = "bytes=0-1,500-501" then
        .ranges "bytes" [(0, 1), (500, 501)]
      else .malformed
  , dateParse := fun _ => none
  , toUTCString := fun _ => "utc" }

/-- A world over `backend416` with an empty edge cache. -/
def world416 : World := { backend := backend416, cacheMatch := fun _ => none }

/-- A GET for the keyring object with the two-range header
`Range: bytes=0-1,500-501`. -/
def req416 : Request :=
  { method := "GET", pathname := "/secureblue-keyring.gpg", query := []
  , headers := [("range", "bytes=0-1,500-501")] }

/-- A backend serving a whole-object GET of the keyring object. -/
def backend200 : Backend :=
  { bucketHead := fun _ => none
  , bucketGet := fun k opts =>
      if k = keyringFilename ∧ opts = ⟨none, none⟩ then
        some (.withBody obj1k [1, 2, 3])
      else none
  , parseRange := fun _ _ => .malformed
  , dateParse := fun _ => none
  , toUTCString := fun _ => "utc" }

/-- A world over `backend200` with an empty edge cache. -/
def world200 : World := { backend := backend200, cacheMatch := fun _ => none }

/-- A plain whole-object GET for the keyring object. -/
def req200 : Request :=
  { method := "GET", pathname := "/secureblue-keyring.gpg", query := [], headers := [] }

/-- A backend serving a whole-object GET of the size-zero keyring object. -/
def backendZero : Backend :=
  { bucketHead := fun _ => none
  , bucketGet := fun k opts =>
      if k = keyringFilename ∧ opts = ⟨none, none⟩ then
        some (.withBody objZero [])
      else none
  , parseRange := fun _ _ => .malformed
  , dateParse := fun _ => none
  , toUTCString := fun _ => "utc" }

/-- A world over `backendZero` with an empty edge cache. -/
def worldZero : World := { backend := backendZero, cacheMatch := fun _ => none }

/-! ### Helper lemmas -/

/-- The fixed-length pipe always yields exactly the declared length. -/
theorem fixedLengthPipe_length (n : Nat) (bytes : List Nat) :
    (fixedLengthPipe n bytes).length = n := by
  simp only [fixedLengthPipe, List.length_append, List.length_take, List.length_replicate]
  omega

/-- Under a GET/HEAD method, a cache miss and a resolved key, `fetch` runs
the pipeline from the resolved key. -/
theorem fetch_resolves (w : World) (req : Request) (env : Env) (key : String)
    (hm : req.method = "GET" ∨ req.method = "HEAD")
    (hc : w.cacheMatch req = none)
    (hk : ResolvesTo req env key) :
    fetch w req env = afterKey w.backend req env (cachingEnabled env) key := by
  have hmem : req.method ∈ allowedMethods := by
    rcases hm with h | h <;> simp [allowedMethods, h]
  have hno : ¬ req.method = "OPTIONS" := by
    rcases hm with h | h <;> simp [h]
  unfold fetch
  rw [if_neg (not_not_intro hmem), if_neg hno]
  have hcached : (if cachingEnabled env then w.cacheMatch req else none) = none := by
    cases cachingEnabled env <;> simp [hc]
  rw [hcached]
  unfold fetchPipeline
  rcases hk with ⟨hp, hde, hnv, hkey⟩ | ⟨hp, hde, hnv, hkey⟩ | ⟨hp1, hp2, hp3, hkey⟩
  · rw [if_pos (Or.inl hp), if_neg (by simp [hde, hnv])]
    have : ¬ req.pathname = checksumDownloadPath := by
      rw [hp]; decide
    rw [if_neg this, ← hkey]
  · rw [if_pos (Or.inr hp), if_neg (by simp [hde, hnv]), if_pos hp, ← hkey]
  · rw [if_neg (by rintro (h | h) <;> [exact hp1 h; exact hp2 h]), if_pos hp3, hkey]

/-! ### Claim C1 -/

/-- Claim C1, counterexample to the claim as stated: a GET carrying a
non-matching `If-Match` does produce status 412, but the response body is
the fixed text `Precondition Failed`, not empty. -/
theorem claim1_counterexample :
    (fetch world412 req412 env0).response.status = 412 ∧
    (fetch world412 req412 env0).response.body ≠ none ∧
    (fetch world412 req412 env0).response.body = some (RespBody.text "Precondition Failed") := by
  refine ⟨rfl, by decide, rfl⟩

/-- Claim C1 (amended): for every GET/HEAD request carrying a truthy
`If-Match` or `If-Unmodified-Since` (after trimming, quote-stripping, and
ignoring unparseable dates), the engine issues a conditional backend GET
with those constraints (`opts412Of`) and the effective range, and if the
backend returns metadata without a body the final response has status 412
with body the fixed text `Precondition Failed` (not empty), no headers, and
processing stops: the recorded trace shows no backend call after that
conditional GET, and nothing is cached. -/
theorem claim1_precondition_failed (w : World) (req : Request) (env : Env) (key : String)
    (r0 : Option ParsedRange) (f0 : Option R2Result) (cs0 : List BackendCall) (o : R2Object)
    (hm : req.method = "GET" ∨ req.method = "HEAD")
    (hc : w.cacheMatch req = none)
    (hk : ResolvesTo req env key)
    (hr : rangeStage w.backend req key = .ok (r0, f0, cs0))
    (hcond : (truthyOpt (ifMatchOf req) || truthyIntOpt (ifUnmodifiedSinceOf w.backend req)) = true)
    (hget : w.backend.bucketGet key
        (opts412Of w.backend req (ifRangeFilter w.backend r0 (getHeader req "if-range") f0))
        = some (R2Result.meta o)) :
    fetch w req env =
      ⟨⟨412, [], some (.text "Precondition Failed")⟩,
       cs0 ++ [.getCall key
         (opts412Of w.backend req (ifRangeFilter w.backend r0 (getHeader req "if-range") f0))],
       false⟩ := by
  rw [fetch_resolves w req env key hm hc hk]
  unfold afterKey
  rw [hr]
  simp only [afterRange, hcond, hget, if_true]

/-- Witness for claim C1's amended theorem at a concrete input. -/
theorem claim1_witness :
    fetch world412 req412 env0 =
      ⟨⟨412, [], some (.text "Precondition Failed")⟩,
       [] ++ [.getCall keyringFilename
         (opts412Of world412.backend req412 (ifRangeFilter world412.backend none (getHeader req412 "if-range") none))],
       false⟩ :=
  claim1_precondition_failed world412 req412 env0 keyringFilename none none [] obj1k
    (Or.inl rfl) rfl (Or.inr (Or.inr (by refine ⟨by decide, by decide, rfl, rfl⟩))) rfl
    (by decide) rfl

/-! ### Claim C2 -/

/-- Claim C2: for every request carrying a truthy `If-None-Match` or
`If-Modified-Since` that is not stopped by the 412 stage (the conditional
GET of that stage, if issued, does not report a failed condition), the
engine issues the conditional backend GET of `opts304Of`, which by
construction uses only the `If-None-Match` constraint whenever that header
is truthy — `If-Modified-Since` is never combined with it (second
conjunct).  If the condition fails (the backend returns metadata without a
body), the final response has status 304 with an empty body and an empty
header list (vacuously limited to validators), processing stops, and
nothing is cached. -/
theorem claim2_not_modified (w : World) (req : Request) (env : Env) (key : String)
    (r0 : Option ParsedRange) (f0 : Option R2Result) (cs0 : List BackendCall) (o : R2Object)
    (hm : req.method = "GET" ∨ req.method = "HEAD")
    (hc : w.cacheMatch req = none)
    (hk : ResolvesTo req env key)
    (hr : rangeStage w.backend req key = .ok (r0, f0, cs0))
    (hcond : (truthyOpt (ifNoneMatchOf req) || truthyIntOpt (ifModifiedSinceOf w.backend req)) = true)
    (h412 : ∀ o2, w.backend.bucketGet key
        (opts412Of w.backend req (ifRangeFilter w.backend r0 (getHeader req "if-range") f0))
        ≠ some (R2Result.meta o2))
    (hget : w.backend.bucketGet key
        (opts304Of w.backend req (ifRangeFilter w.backend r0 (getHeader req "if-range") f0))
        = some (R2Result.meta o)) :
    fetch w req env =
      ⟨⟨304, [], none⟩,
       (cs0 ++ (if (truthyOpt (ifMatchOf req) || truthyIntOpt (ifUnmodifiedSinceOf w.backend req)) = true
          then [.getCall key (opts412Of w.backend req (ifRangeFilter w.backend r0 (getHeader req "if-range") f0))]
          else [])) ++
        [.getCall key (opts304Of w.backend req (ifRangeFilter w.backend r0 (getHeader req "if-range") f0))],
       false⟩ ∧
    (truthyOpt (ifNoneMatchOf req) = true →
      opts304Of w.backend req (ifRangeFilter w.backend r0 (getHeader req "if-range") f0)
        = ⟨some ⟨none, ifNoneMatchOf req, none, none⟩,
           ifRangeFilter w.backend r0 (getHeader req "if-range") f0⟩) := by
  constructor
  · rw [fetch_resolves w req env key hm hc hk]
    unfold afterKey
    rw [hr]
    by_cases h1 : (truthyOpt (ifMatchOf req) || truthyIntOpt (ifUnmodifiedSinceOf w.backend req)) = true
    · simp only [afterRange, h1, if_true]
      rcases hx : w.backend.bucketGet key
          (opts412Of w.backend req (ifRangeFilter w.backend r0 (getHeader req "if-range") f0))
        with _ | f1
      · simp only [hx, stage304, hcond, hget, if_true]
      · rcases f1 with o2 | ⟨o2, bs⟩
        · exact absurd hx (h412 o2)
        · simp only [hx, stage304, hcond, hget, if_true]
    · rw [Bool.not_eq_true] at h1
      simp only [afterRange, h1, Bool.false_eq_true, if_false, stage304, hcond, hget, if_true,
        List.append_nil]
  · intro h
    simp [opts304Of, h]

/-- Witness for claim C2 at a concrete input: a GET carrying both
`If-None-Match` (matching the stored etag) and `If-Modified-Since`; the
single conditional GET uses only the `etagDoesNotMatch` constraint and the
response is an empty, header-less 304. -/
theorem claim2_witness :
    (fetch world304 req304 env0).response = ⟨304, [], none⟩ ∧
    (fetch world304 req304 env0).calls
      = [.getCall keyringFilename ⟨some ⟨none, some "abc", none, none⟩, none⟩] := by
  have h := (claim2_not_modified world304 req304 env0 keyringFilename none none [] obj1k
    (Or.inl rfl) rfl (Or.inr (Or.inr ⟨by decide, by decide, rfl, rfl⟩)) rfl
    (by decide) (fun o2 h => Option.noConfusion h) rfl).1
  rw [h]
  exact ⟨rfl, by decide⟩

/-! ### Claim C3 -/

/-- Claim C3: a single satisfiable bytes range `[start, end]` against the
object size is encoded as a suffix of length `size - start` exactly when
`end + 1 = size`, and as `{offset: start, length: end - start + 1}`
otherwise (first conjunct; this is what the range stage produces, third
conjunct).  Either encoding renders the `content-range` value
`bytes start-end/size` and declares length `end - start + 1` (second
conjunct).  In particular, for size 1000 and `Range: bytes=900-999` the
result is the suffix form `{suffix: 100}` and the response has status 206,
`content-range: bytes 900-999/1000` and `content-length: 100`. -/
theorem claim3_range_encoding :
    (∀ size s e : Nat, encodeRange size s e =
      if size = e + 1 then ParsedRange.suffix (size - s)
      else ParsedRange.offsetLength s (e - s + 1)) ∧
    (∀ size s e : Nat, s ≤ e → e < size →
      getRangeHeader (encodeRange size s e) size
        = "bytes " ++ toString s ++ "-" ++ toString e ++ "/" ++ toString size ∧
      rangeLen (encodeRange size s e) = e - s + 1) ∧
    (∀ (b : Backend) (req : Request) (key : String) (f : R2Object) (fr : Nat × Nat),
      req.method = "GET" → truthyOpt (getHeader req "range") = true →
      b.bucketHead key = some f →
      b.parseRange f.size ((getHeader req "range").getD "") = .ranges "bytes" [fr] →
      rangeStage b req key
        = .ok (some (encodeRange f.size fr.1 fr.2), some (.meta f), [.headCall key])) ∧
    encodeRange 1000 900 999 = ParsedRange.suffix 100 ∧
    (fetch world206 req206 env0).response.status = 206 ∧
    (fetch world206 req206 env0).response.header "content-range" = some "bytes 900-999/1000" ∧
    (fetch world206 req206 env0).response.header "content-length" = some "100" := by
  refine ⟨fun size s e => rfl, ?_, ?_, by decide, rfl, rfl, rfl⟩
  · intro size s e h1 h2
    by_cases h : size = e + 1
    · constructor
      · have h3 : size - (size - s) = s := by omega
        have h4 : size - 1 = e := by omega
        simp only [encodeRange, if_pos h, getRangeHeader, h3, h4]
      · simp only [encodeRange, if_pos h, rangeLen]
        omega
    · constructor
      · have h5 : s + (e - s + 1) - 1 = e := by omega
        simp only [encodeRange, if_neg h, getRangeHeader, h5]
      · simp only [encodeRange, if_neg h, rangeLen]
  · intro b req key f fr hm hrng hhead hparse
    simp only [rangeStage, hm, hrng, hhead, hparse, and_self, if_true]

/-- Witness for claim C3 at the concrete range `[900, 999]` against size
1000: the rendered `content-range` value and the declared length. -/
theorem claim3_witness :
    getRangeHeader (encodeRange 1000 900 999) 1000 = "bytes 900-999/1000" ∧
    rangeLen (encodeRange 1000 900 999) = 100 := by
  have h := claim3_range_encoding.2.1 1000 900 999 (by decide) (by decide)
  exact ⟨h.1.trans (by decide), h.2.trans (by decide)⟩

/-! ### Claim C4 -/

/-- Claim C4: when a range, a non-empty `If-Range` header and object
metadata are all present, the effective range is kept (left unchanged)
exactly when the header parses as a valid date that is not later than the
object's last-modified time, or is a strong entity tag (no `W/` prefix)
exactly equal to the object's validator string; in every other case it is
discarded (the request is treated as whole-object). -/
theorem claim4_if_range (b : Backend) (r : ParsedRange) (ir : String) (f : R2Result)
    (hir : ir ≠ "") :
    (ifRangeFilter b (some r) (some ir) (some f) = some r ↔
      (∃ d, b.dateParse ir = some d ∧ d ≤ (R2Result.obj f).uploaded) ∨
      (strStartsWith ir "W/" = false ∧ ir = (R2Result.obj f).httpEtag)) ∧
    (ifRangeFilter b (some r) (some ir) (some f) = some r ∨
     ifRangeFilter b (some r) (some ir) (some f) = none) := by
  simp only [ifRangeFilter]
  rw [if_neg hir]
  rcases hd : b.dateParse ir with _ | d <;> dsimp only
  · by_cases hw : strStartsWith ir "W/" = true ∨ ir ≠ (R2Result.obj f).httpEtag
    · rw [if_pos hw]
      refine ⟨⟨fun h => by simp at h, fun h => ?_⟩, Or.inr rfl⟩
      rcases h with ⟨d2, hd2, _⟩ | ⟨h1, h2⟩
      · exact Option.noConfusion hd2
      · exact absurd hw (by push_neg; exact ⟨by simp [h1], h2⟩)
    · rw [if_neg hw]
      push_neg at hw
      exact ⟨⟨fun _ => Or.inr ⟨by simpa using hw.1, hw.2⟩, fun _ => rfl⟩, Or.inl rfl⟩
  · by_cases hgt : d > (R2Result.obj f).uploaded
    · rw [if_pos hgt]
      by_cases hw : strStartsWith ir "W/" = true ∨ ir ≠ (R2Result.obj f).httpEtag
      · rw [if_pos hw]
        refine ⟨⟨fun h => by simp at h, fun h => ?_⟩, Or.inr rfl⟩
        rcases h with ⟨d2, hd2, hle⟩ | ⟨h1, h2⟩
        · cases hd2
          exact absurd hle (by omega)
        · exact absurd hw (by push_neg; exact ⟨by simp [h1], h2⟩)
      · rw [if_neg hw]
        push_neg at hw
        exact ⟨⟨fun _ => Or.inr ⟨by simpa using hw.1, hw.2⟩, fun _ => rfl⟩, Or.inl rfl⟩
    · rw [if_neg hgt]
      exact ⟨⟨fun _ => Or.inl ⟨d, rfl, le_of_not_lt hgt⟩, fun _ => rfl⟩, Or.inl rfl⟩

/-- Witness for claim C4 at a concrete input: an `If-Range` equal to the
object's strong validator keeps the range. -/
theorem claim4_witness :
    ifRangeFilter backend304 (some (ParsedRange.suffix 5)) (some "\"e1\"")
      (some (R2Result.meta obj1k)) = some (ParsedRange.suffix 5) :=
  ((claim4_if_range backend304 (ParsedRange.suffix 5) "\"e1\"" (R2Result.meta obj1k)
      (by decide)).1).mpr (Or.inr ⟨by decide, rfl⟩)

/-! ### Claim C5 -/

/-- Claim C5: a GET whose `Range` header the parser reports as malformed,
unsatisfiable, more than one range, or not of unit `bytes`, yields status
416 and performs no backend body fetch: the only backend call in the trace
is the initial metadata `head`. -/
theorem claim5_range_rejected (w : World) (req : Request) (env : Env) (key : String)
    (f : R2Object)
    (hm : req.method = "GET")
    (hc : w.cacheMatch req = none)
    (hk : ResolvesTo req env key)
    (hrng : truthyOpt (getHeader req "range") = true)
    (hhead : w.backend.bucketHead key = some f)
    (hbad : (w.backend.parseRange f.size ((getHeader req "range").getD "")).rejected = true) :
    fetch w req env =
      ⟨⟨416, [], some (.text "Range Not Satisfiable")⟩, [BackendCall.headCall key], false⟩ := by
  rw [fetch_resolves w req env key (Or.inl hm) hc hk]
  unfold afterKey
  have hstage : rangeStage w.backend req key
      = .error ⟨⟨416, [], some (.text "Range Not Satisfiable")⟩, [.headCall key], false⟩ := by
    unfold rangeStage
    rw [if_pos ⟨hm, hrng⟩, hhead]
    dsimp only
    rcases hp : w.backend.parseRange f.size ((getHeader req "range").getD "")
        with _ | _ | ⟨ty, rs⟩ <;> rw [hp] at hbad
    all_goals first
      | rfl
      | (dsimp only
         rcases rs with _ | ⟨fr, rs2⟩
         · rfl
         · rcases rs2 with _ | ⟨g, rs3⟩
           · have hty : ¬ ty = "bytes" := by
               simpa [ParseResult.rejected] using hbad
             dsimp only
             rw [if_neg hty]
           · rfl)
  rw [hstage]

/-- Witness for claim C5 at the concrete two-range header
`Range: bytes=0-1,500-501` against the 1000-byte object. -/
theorem claim5_witness :
    fetch world416 req416 env0 =
      ⟨⟨416, [], some (.text "Range Not Satisfiable")⟩,
       [BackendCall.headCall keyringFilename], false⟩ :=
  claim5_range_rejected world416 req416 env0 keyringFilename obj1k rfl rfl
    (Or.inr (Or.inr ⟨by decide, by decide, rfl, rfl⟩)) (by decide) (by decide) (by decide)

/-! ### Claim C6 -/

/-- Claim C6: at response assembly the status is 404 when the object is
absent and no fallback is configured (for GET and for HEAD), 404 with the
fallback object's body when the object is absent and a not-found-fallback
object exists, 206 when a range is active and a body is present — also
when the `Range` header's initial metadata fetch produced only metadata
and the body came from the final ranged GET — and 200 otherwise. -/
theorem claim6_status_selection (b : Backend) (req : Request) (env : Env) (c : Bool)
    (key : String) (range : Option ParsedRange) (file : Option R2Result)
    (calls : List BackendCall) (f0 : R2Object) (g : R2Result) (r : ParsedRange) :
    (req.method = "GET" → file = none →
      b.bucketGet key ⟨none, range⟩ = none → truthyOpt env.NOTFOUND_FILE = false →
      finalStage b req env c key range file calls =
        ⟨⟨404, [], some (.text "File Not Found")⟩,
         calls ++ [.getCall key ⟨none, range⟩], false⟩) ∧
    (req.method = "HEAD" → b.bucketHead key = none → truthyOpt env.NOTFOUND_FILE = false →
      finalStage b req env c key range file calls =
        ⟨⟨404, [], some (.text "File Not Found")⟩, calls ++ [.headCall key], false⟩) ∧
    (req.method = "GET" → file = none →
      b.bucketGet key ⟨none, range⟩ = none → truthyOpt env.NOTFOUND_FILE = true →
      b.bucketGet (env.NOTFOUND_FILE.getD "") ⟨none, none⟩ = some g →
      g.hasBody = true → g.obj.size ≠ 0 →
      (finalStage b req env c key range file calls).response.status = 404 ∧
      (finalStage b req env c key range file calls).response.body
        = some (.stream (fixedLengthPipe g.obj.size g.bodyBytes))) ∧
    (req.method = "GET" → file = some (R2Result.meta f0) →
      b.bucketGet key ⟨none, range⟩ = some g → g.hasBody = true → range = some r →
      (finalStage b req env c key range file calls).response.status = 206) ∧
    (req.method = "GET" → file = some g → g.hasBody = true → range = none →
      (finalStage b req env c key range file calls).response.status = 200) := by
  refine ⟨?_, ?_, ?_, ?_, ?_⟩
  · intro hm hf hget hnf
    have hH : ¬ req.method = "HEAD" := by rw [hm]; decide
    subst hf
    unfold finalStage
    rw [if_neg hH]
    dsimp only
    rw [hget]
    unfold afterFinal
    dsimp only
    rw [if_neg (by simp [hnf])]
  · intro hm hhead hnf
    unfold finalStage
    rw [if_pos hm, hhead]
    simp only [Option.map_none']
    unfold afterFinal
    dsimp only
    rw [if_neg (by simp [hnf])]
  · intro hm hf hget hnf hfb hb hsz
    have hH : ¬ req.method = "HEAD" := by rw [hm]; decide
    subst hf
    unfold finalStage
    rw [if_neg hH]
    dsimp only
    rw [hget]
    unfold afterFinal
    dsimp only
    rw [if_pos (by simp [hnf])]
    unfold fallbackStage
    dsimp only
    rw [if_neg hH, hfb]
    dsimp only
    unfold assembleFinish assembleResponse
    refine ⟨rfl, ?_⟩
    dsimp only
    rcases range with _ | r0
    · simp [hb, hsz]
    · simp [hb, hsz]
  · intro hm hf hget hb hr
    have hH : ¬ req.method = "HEAD" := by rw [hm]; decide
    subst hf
    subst hr
    unfold finalStage
    rw [if_neg hH]
    dsimp only [R2Result.hasBody]
    rw [if_neg (by decide), hget]
    unfold afterFinal
    dsimp only
    rfl
  · intro hm hf hb hrn
    have hH : ¬ req.method = "HEAD" := by rw [hm]; decide
    subst hf
    subst hrn
    unfold finalStage
    rw [if_neg hH]
    dsimp only
    rw [if_pos hb]
    unfold afterFinal
    dsimp only
    rfl

/-- Witness for claim C6 at a concrete input: a whole-object GET whose
final fetch produced a body yields status 200. -/
theorem claim6_witness :
    (finalStage backend200 req200 env0 true keyringFilename none
        (some (R2Result.withBody obj1k [1, 2, 3])) []).response.status = 200 :=
  (claim6_status_selection backend200 req200 env0 true keyringFilename none
      (some (R2Result.withBody obj1k [1, 2, 3])) [] obj1k
      (R2Result.withBody obj1k [1, 2, 3]) (ParsedRange.suffix 1)).2.2.2.2 rfl rfl rfl rfl

/-! ### Claim C7 -/

/-- The declared content length of an assembled response, read off the
definition (source lines 253-259). -/
theorem assembleResponse_contentLength_header (b : Backend) (env : Env) (key : String)
    (range : Option ParsedRange) (notFound : Bool) (f : R2Result) :
    (assembleResponse b env key range notFound f).header "content-length"
      = some (toString (match range with
          | some r =>
            if f.hasBody && (f.obj.size != 0) && !notFound then rangeLen r else f.obj.size
          | none => f.obj.size)) := by
  rcases range with _ | r <;> rfl

/-- The body of an assembled response, read off the definition (source
lines 253-263). -/
theorem assembleResponse_body (b : Backend) (env : Env) (key : String)
    (range : Option ParsedRange) (notFound : Bool) (f : R2Result) :
    (assembleResponse b env key range notFound f).body
      = (if f.hasBody && (f.obj.size != 0) then
          some (.stream (fixedLengthPipe
            (match range with
             | some r =>
               if f.hasBody && (f.obj.size != 0) && !notFound then rangeLen r else f.obj.size
             | none => f.obj.size) f.bodyBytes))
        else none) := by
  rcases range with _ | r <;> rfl

/-- Claim C7: for every response assembled with a body-bearing result on a
non-empty object, the declared `content-length` equals the effective
range's length (or suffix, via `rangeLen`) when a range is active and this
is not the fallback path, and the full object size otherwise; and the body
stream is forced through the fixed-length pipe to exactly that declared
length. -/
theorem claim7_content_length (b : Backend) (env : Env) (key : String)
    (range : Option ParsedRange) (notFound : Bool) (f : R2Result)
    (hb : f.hasBody = true) (hsz : f.obj.size ≠ 0) :
    (assembleResponse b env key range notFound f).body
      = some (.stream (fixedLengthPipe
          (match range with
           | some r => if notFound then f.obj.size else rangeLen r
           | none => f.obj.size) f.bodyBytes)) ∧
    (fixedLengthPipe
        (match range with
         | some r => if notFound then f.obj.size else rangeLen r
         | none => f.obj.size) f.bodyBytes).length
      = (match range with
         | some r => if notFound then f.obj.size else rangeLen r
         | none => f.obj.size) ∧
    (assembleResponse b env key range notFound f).header "content-length"
      = some (toString
          (match range with
           | some r => if notFound then f.obj.size else rangeLen r
           | none => f.obj.size)) := by
  have hsz2 : (f.obj.size != 0) = true := by simpa [bne_iff_ne] using hsz
  rw [assembleResponse_body, assembleResponse_contentLength_header]
  refine ⟨?_, fixedLengthPipe_length _ _, ?_⟩ <;>
    rcases range with _ | r <;> cases notFound <;> simp [hb, hsz2]

/-- Witness for claim C7 at a concrete input: a suffix-100 ranged response
over the 1000-byte object declares length 100 and carries a 100-byte
stream. -/
theorem claim7_witness :
    (assembleResponse backend206 env0 keyringFilename (some (ParsedRange.suffix 100)) false
        (R2Result.withBody obj1k [])).body
      = some (.stream (fixedLengthPipe 100 [])) ∧
    (fixedLengthPipe 100 ([] : List Nat)).length = 100 ∧
    (assembleResponse backend206 env0 keyringFilename (some (ParsedRange.suffix 100)) false
        (R2Result.withBody obj1k [])).header "content-length" = some "100" :=
  claim7_content_length backend206 env0 keyringFilename (some (ParsedRange.suffix 100)) false
    (R2Result.withBody obj1k []) rfl (by decide)

/-! ### Claim C8 -/

/-- Claim C8 evidence.  The backoff delays follow
`min(1000 * 2^(attempt-1), 30000)` (conjuncts 4-7), exhausting the budget
re-raises the last failure (conjunct 3), and an operation failing twice
then succeeding under a budget of 3 returns the same result as an
immediate success after the two increasing delays 1000 ms and 2000 ms
(conjunct 2).  However, a budget of `-1` does not retry forever: the first
failure is re-raised immediately with no retry and no delay (conjunct 1),
because the catch-block check `attempts <= maxAttempts` is false for
`maxAttempts = -1`, defeating the loop guard's own `maxAttempts == -1`
case — the code contradicts its own loop guard and the spec. -/
theorem claim8_retry_evaluation :
    retryAsync (E := String) (T := Nat) { R2_RETRIES := some (-1) }
      (fun _ => .error "boom") 10 = RetryResult.err "boom" [] ∧
    retryAsync (E := String) (T := Nat) { R2_RETRIES := some 3 }
      (fun n => if n < 2 then .error "boom" else .ok 42) 10
      = RetryResult.ok 42 [1000, 2000] ∧
    retryAsync (E := String) (T := Nat) { R2_RETRIES := some 2 }
      (fun _ => .error "boom") 10 = RetryResult.err "boom" [1000, 2000] ∧
    retryAsync (E := String) (T := Nat) { R2_RETRIES := some 3 }
      (fun _ => .ok 42) 10 = RetryResult.ok 42 [] ∧
    backoffDelay 1 = 1000 ∧ backoffDelay 2 = 2000 ∧ backoffDelay 3 = 4000 ∧
    backoffDelay 6 = 30000 :=
  ⟨rfl, rfl, rfl, rfl, rfl, rfl, rfl, rfl⟩

/-! ### Claim C9 -/

/-- A finished assembly schedules a cache put only for a GET with no
active range, caching enabled and not the fallback path; its status is
then 200. -/
theorem assembleFinish_cachePut (b : Backend) (req : Request) (env : Env) (c : Bool)
    (key : String) (range : Option ParsedRange) (nf : Bool) (f : R2Result)
    (calls : List BackendCall) :
    (assembleFinish b req env c key range nf f calls).cachePut = true →
      req.method = "GET" ∧ c = true ∧
      (assembleFinish b req env c key range nf f calls).response.status = 200 := by
  intro h
  simp only [assembleFinish, Bool.and_eq_true, beq_iff_eq, Option.isNone_iff_eq_none,
    Bool.not_eq_true'] at h
  obtain ⟨⟨⟨hG, hrn⟩, hc⟩, hnf⟩ := h
  refine ⟨hG, hc, ?_⟩
  simp [assembleFinish, assembleResponse, hnf, hrn]

/-- The fallback path never schedules a cache put. -/
theorem fallbackStage_cachePut (b : Backend) (req : Request) (env : Env) (c : Bool)
    (key : String) (range : Option ParsedRange) (calls : List BackendCall) :
    (fallbackStage b req env c key range calls).cachePut = false := by
  unfold fallbackStage
  dsimp only
  split
  · split
    · simp [assembleFinish]
    · rfl
  · split
    · simp [assembleFinish]
    · rfl

/-- `afterFinal` schedules a cache put only for a GET with no active
range and caching enabled; its status is then 200. -/
theorem afterFinal_cachePut (b : Backend) (req : Request) (env : Env) (c : Bool)
    (key : String) (range : Option ParsedRange) (file3 : Option R2Result)
    (calls3 : List BackendCall) :
    (afterFinal b req env c key range file3 calls3).cachePut = true →
      req.method = "GET" ∧ c = true ∧
      (afterFinal b req env c key range file3 calls3).response.status = 200 := by
  unfold afterFinal
  rcases file3 with _ | f
  · dsimp only
    by_cases hnf : truthyOpt env.NOTFOUND_FILE = true
    · rw [if_pos hnf]
      intro h
      rw [fallbackStage_cachePut] at h
      simp at h
    · rw [if_neg hnf]
      intro h
      simp at h
  · dsimp only
    exact assembleFinish_cachePut b req env c key range false f calls3

/-- `finalStage` schedules a cache put only for a GET with no active
range and caching enabled; its status is then 200. -/
theorem finalStage_cachePut (b : Backend) (req : Request) (env : Env) (c : Bool)
    (key : String) (range : Option ParsedRange) (file : Option R2Result)
    (calls : List BackendCall) :
    (finalStage b req env c key range file calls).cachePut = true →
      req.method = "GET" ∧ c = true ∧
      (finalStage b req env c key range file calls).response.status = 200 := by
  unfold finalStage
  by_cases hH : req.method = "HEAD"
  · rw [if_pos hH]
    exact afterFinal_cachePut _ _ _ _ _ _ _ _
  · rw [if_neg hH]
    rcases file with _ | f
    · dsimp only
      exact afterFinal_cachePut _ _ _ _ _ _ _ _
    · dsimp only
      by_cases hb : f.hasBody = true
      · rw [if_pos hb]
        exact afterFinal_cachePut _ _ _ _ _ _ _ _
      · rw [if_neg hb]
        exact afterFinal_cachePut _ _ _ _ _ _ _ _

/-- `stage304` schedules a cache put only for a GET with no active range
and caching enabled; its status is then 200. -/
theorem stage304_cachePut (b : Backend) (req : Request) (env : Env) (c : Bool)
    (key : String) (range : Option ParsedRange) (file : Option R2Result)
    (calls : List BackendCall) :
    (stage304 b req env c key range file calls).cachePut = true →
      req.method = "GET" ∧ c = true ∧
      (stage304 b req env c key range file calls).response.status = 200 := by
  unfold stage304
  by_cases h1 : (truthyOpt (ifNoneMatchOf req) || truthyIntOpt (ifModifiedSinceOf b req)) = true
  · rw [if_pos h1]
    rcases hx : b.bucketGet key (opts304Of b req range) with _ | f2
    · dsimp only
      exact finalStage_cachePut _ _ _ _ _ _ _ _
    · rcases f2 with o | ⟨o, bs⟩
      · dsimp only
        intro h
        simp at h
      · dsimp only
        exact finalStage_cachePut _ _ _ _ _ _ _ _
  · rw [if_neg h1]
    exact finalStage_cachePut _ _ _ _ _ _ _ _

/-- `afterRange` schedules a cache put only for a GET with no active range
and caching enabled; its status is then 200. -/
theorem afterRange_cachePut (b : Backend) (req : Request) (env : Env) (c : Bool)
    (key : String) (range0 : Option ParsedRange) (file0 : Option R2Result)
    (calls0 : List BackendCall) :
    (afterRange b req env c key range0 file0 calls0).cachePut = true →
      req.method = "GET" ∧ c = true ∧
      (afterRange b req env c key range0 file0 calls0).response.status = 200 := by
  unfold afterRange
  dsimp only
  by_cases h1 : (truthyOpt (ifMatchOf req) || truthyIntOpt (ifUnmodifiedSinceOf b req)) = true
  · rw [if_pos h1]
    rcases hx : b.bucketGet key
        (opts412Of b req (ifRangeFilter b range0 (getHeader req "if-range") file0)) with _ | f1
    · dsimp only
      exact stage304_cachePut _ _ _ _ _ _ _ _
    · rcases f1 with o | ⟨o, bs⟩
      · dsimp only
        intro h
        simp at h
      · dsimp only
        exact stage304_cachePut _ _ _ _ _ _ _ _
  · rw [if_neg h1]
    exact stage304_cachePut _ _ _ _ _ _ _ _

/-- Early failures of the range stage never schedule a cache put. -/
theorem rangeStage_error_cachePut (b : Backend) (req : Request) (key : String)
    (out : FetchOutcome) (h : rangeStage b req key = .error out) : out.cachePut = false := by
  unfold rangeStage at h
  repeat' split at h
  all_goals first
    | (injection h with h2; rw [← h2])
    | exact Except.noConfusion h

/-- `afterKey` schedules a cache put only for a GET with no active range
and caching enabled; its status is then 200. -/
theorem afterKey_cachePut (b : Backend) (req : Request) (env : Env) (c : Bool)
    (key : String) :
    (afterKey b req env c key).cachePut = true →
      req.method = "GET" ∧ c = true ∧ (afterKey b req env c key).response.status = 200 := by
  unfold afterKey
  rcases hr : rangeStage b req key with out | ⟨r0, f0, cs0⟩
  · dsimp only
    intro h
    rw [rangeStage_error_cachePut b req key out hr] at h
    simp at h
  · dsimp only
    exact afterRange_cachePut _ _ _ _ _ _ _ _

/-- The miss pipeline schedules a cache put only for a GET with no active
range and caching enabled; its status is then 200. -/
theorem fetchPipeline_cachePut (b : Backend) (req : Request) (env : Env) (c : Bool) :
    (fetchPipeline b req env c).cachePut = true →
      req.method = "GET" ∧ c = true ∧ (fetchPipeline b req env c).response.status = 200 := by
  unfold fetchPipeline
  by_cases h1 : req.pathname = isoDownloadPath ∨ req.pathname = checksumDownloadPath
  · rw [if_pos h1]
    by_cases h2 : truthyOpt (getParam req "de") = false ∨ truthyOpt (getParam req "nvidia") = false
    · rw [if_pos h2]
      intro h
      simp at h
    · rw [if_neg h2]
      exact afterKey_cachePut _ _ _ _ _
  · rw [if_neg h1]
    by_cases h3 : req.pathname.drop 1 = keyringFilename
    · rw [if_pos h3]
      exact afterKey_cachePut _ _ _ _ _
    · rw [if_neg h3]
      intro h
      simp at h

/-- `fetch` schedules a cache put only for a GET with caching enabled,
and the scheduled response has status 200. -/
theorem fetch_cachePut (w : World) (req : Request) (env : Env) :
    (fetch w req env).cachePut = true →
      req.method = "GET" ∧ cachingEnabled env = true ∧
      (fetch w req env).response.status = 200 := by
  unfold fetch
  by_cases h1 : req.method ∉ allowedMethods
  · rw [if_pos h1]
    intro h
    simp at h
  · rw [if_neg h1]
    by_cases h2 : req.method = "OPTIONS"
    · rw [if_pos h2]
      intro h
      simp at h
    · rw [if_neg h2]
      rcases hc : (if cachingEnabled env then w.cacheMatch req else none) with _ | r
      · dsimp only
        exact fetchPipeline_cachePut _ _ _ _
      · dsimp only
        by_cases h3 : (r.ok || r.status == 304) = true
        · rw [if_pos h3]
          intro h
          simp at h
        · rw [if_neg h3]
          exact fetchPipeline_cachePut _ _ _ _

/-- Claim C9: with caching enabled, a cached response whose status is
successful or 304 is returned immediately, short-circuiting all backend
calls (first conjunct).  Whenever a run schedules a cache put, the stored
entry is that run's response itself, and re-issuing the same request
against a cache holding it returns a byte-identical response with no
backend calls (second conjunct; `fetch_cachePut` shows such a run is a
whole-object, non-fallback GET with status 200).  A cached entry whose
status is neither successful nor 304 is ignored and the pipeline runs as
if the cache were empty (third conjunct). -/
theorem claim9_cache_round_trip (w : World) (req : Request) (env : Env) :
    (∀ r : Response, cachingEnabled env = true → req.method ∈ allowedMethods →
      req.method ≠ "OPTIONS" → w.cacheMatch req = some r →
      (r.ok = true ∨ r.status = 304) → fetch w req env = ⟨r, [], false⟩) ∧
    ((fetch w req env).cachePut = true →
      fetch { w with cacheMatch := fun q =>
          if q = req then some (fetch w req env).response else w.cacheMatch q } req env
        = ⟨(fetch w req env).response, [], false⟩) ∧
    (∀ r : Response, w.cacheMatch req = some r → ¬ r.ok = true → r.status ≠ 304 →
      fetch w req env = fetch { w with cacheMatch := fun _ => none } req env) := by
  refine ⟨?_, ?_, ?_⟩
  · intro r hce hmem hno hcm hok
    unfold fetch
    rw [if_neg (not_not_intro hmem), if_neg hno, if_pos hce, hcm]
    dsimp only
    rw [if_pos (by rcases hok with h | h <;> simp [h])]
  · intro h
    obtain ⟨hG, hce, h200⟩ := fetch_cachePut w req env h
    set resp := (fetch w req env).response with hresp
    have hok : resp.ok = true := by simp [Response.ok, h200]
    unfold fetch
    rw [if_neg (not_not_intro (by rw [hG]; decide)), if_neg (by rw [hG]; decide), if_pos hce]
    dsimp only
    rw [if_pos rfl]
    dsimp only
    rw [if_pos (by simp [hok])]
  · intro r hcm hok h304
    unfold fetch
    by_cases h1 : req.method ∉ allowedMethods
    · rw [if_pos h1, if_pos h1]
    · rw [if_neg h1, if_neg h1]
      by_cases h2 : req.method = "OPTIONS"
      · rw [if_pos h2, if_pos h2]
      · rw [if_neg h2, if_neg h2]
        by_cases hce : cachingEnabled env = true
        · rw [if_pos hce, if_pos hce, hcm]
          dsimp only
          rw [if_neg (by simp [hok, h304])]
        · rw [if_neg hce, if_neg hce]

/-- Witness for claim C9: the whole-object keyring GET schedules a cache
put, and replaying it against a cache holding the assembled response
returns that response unchanged with no backend calls. -/
theorem claim9_witness :
    fetch { world200 with cacheMatch := fun q =>
        if q = req200 then some (fetch world200 req200 env0).response
        else world200.cacheMatch q } req200 env0
      = ⟨(fetch world200 req200 env0).response, [], false⟩ :=
  (claim9_cache_round_trip world200 req200 env0).2.1 (by decide)

/-! ### Claim C10 -/

/-- Claim C10: a plain GET (no `Range`, no conditional headers) that
resolves to an existing object of size 0 yields status 200, carries no
body stream at all (the fixed-length pipe is skipped), declares
`content-length: 0`, and produces every other header exactly as for a
non-empty object of the same metadata (fourth conjunct: the header lists
agree on everything except `content-length` for any object size). -/
theorem claim10_empty_object (w : World) (req : Request) (env : Env) (key : String)
    (o : R2Object) (bs : List Nat)
    (hm : req.method = "GET")
    (hc : w.cacheMatch req = none)
    (hk : ResolvesTo req env key)
    (hrange : getHeader req "range" = none)
    (him : getHeader req "if-match" = none)
    (hinm : getHeader req "if-none-match" = none)
    (hims : getHeader req "if-modified-since" = none)
    (hius : getHeader req "if-unmodified-since" = none)
    (hnan : w.backend.dateParse "" = none)
    (hget : w.backend.bucketGet key ⟨none, none⟩ = some (R2Result.withBody o bs))
    (hsz : o.size = 0) :
    (fetch w req env).response.status = 200 ∧
    (fetch w req env).response.body = none ∧
    (fetch w req env).response.header "content-length" = some "0" ∧
    (∀ (n : Nat) (bs2 : List Nat),
      ((assembleResponse w.backend env key none false
          (R2Result.withBody ⟨n, o.httpEtag, o.uploaded, o.httpMetadata⟩ bs2)).headers.filter
        (fun p => p.1 != "content-length"))
      = ((fetch w req env).response.headers.filter (fun p => p.1 != "content-length"))) := by
  have h1 : ifMatchOf req = none := by rw [ifMatchOf, him]; rfl
  have h2 : ifNoneMatchOf req = none := by rw [ifNoneMatchOf, hinm]; rfl
  have h3 : ifModifiedSinceOf w.backend req = none := by
    rw [ifModifiedSinceOf, hims]; exact hnan
  have h4 : ifUnmodifiedSinceOf w.backend req = none := by
    rw [ifUnmodifiedSinceOf, hius]; exact hnan
  have hfe : fetch w req env
      = assembleFinish w.backend req env (cachingEnabled env) key none false
          (R2Result.withBody o bs) ([] ++ [.getCall key ⟨none, none⟩]) := by
    rw [fetch_resolves w req env key (Or.inl hm) hc hk]
    unfold afterKey
    have hr : rangeStage w.backend req key = .ok (none, none, []) := by
      unfold rangeStage
      rw [if_neg (by rw [hrange]; simp [truthyOpt])]
    rw [hr]
    dsimp only
    unfold afterRange
    dsimp only
    rw [if_neg (by simp [h1, h4, truthyOpt, truthyIntOpt])]
    unfold stage304
    rw [if_neg (by simp [h2, h3, truthyOpt, truthyIntOpt])]
    unfold finalStage
    rw [if_neg (by rw [hm]; decide)]
    dsimp only
    rw [show ifRangeFilter w.backend none (getHeader req "if-range") none = none from rfl]
    rw [hget]
    unfold afterFinal
    dsimp only
  rw [hfe]
  refine ⟨rfl, ?_, ?_, ?_⟩
  · show (assembleResponse w.backend env key none false (R2Result.withBody o bs)).body = none
    rw [assembleResponse_body]
    dsimp only [R2Result.obj, R2Result.hasBody]
    rw [hsz]
    rfl
  · show (assembleResponse w.backend env key none false
        (R2Result.withBody o bs)).header "content-length" = some "0"
    rw [assembleResponse_contentLength_header]
    dsimp only [R2Result.obj]
    rw [hsz]
    rfl
  · intro n bs2
    rfl

/-- Witness for claim C10 at a concrete input: a plain GET for the
size-zero keyring object. -/
theorem claim10_witness :
    (fetch worldZero req200 env0).response.status = 200 ∧
    (fetch worldZero req200 env0).response.body = none ∧
    (fetch worldZero req200 env0).response.header "content-length" = some "0" := by
  have h := claim10_empty_object worldZero req200 env0 keyringFilename objZero []
    rfl rfl (Or.inr (Or.inr ⟨by decide, by decide, rfl, rfl⟩)) rfl rfl rfl rfl rfl rfl
    (by decide) rfl
  exact ⟨h.1, h.2.1, h.2.2.1⟩
